import Mathlib

/-!
Verification of the command-execution core (Go package `command`,
src/unnamed/part_000): Firecracker micro-VM command formatting, image
reference sanitization, and the Runner lifecycle (setup / run / teardown).

The Go code is shallowly embedded: pure helpers become Lean functions;
the effectful setup/teardown procedures become functions over explicit
failure oracles (one `Option String` per fallible I/O step, `none`
meaning success) that return the trace of performed steps together with
the returned error.
-/

set_option maxRecDepth 8192

/-! ## Data model (src/unnamed/part_000, lines 220-281) -/

/-- CommandSpec represents a command that can be run on a machine
(src lines 223-231).  The tracing handle `Operation` is opaque to all
verified properties and is omitted. -/
structure CommandSpec where
  Key : String
  Image : String
  ScriptPath : String
  Command : List String
  Dir : String
  Env : List String
deriving DecidableEq, Repr

/-- The internal `command` value handed to the execution primitive
(fields used by this package: Key, Command, Dir, Env). -/
structure command where
  Key : String
  Command : List String
  Dir : String
  Env : List String
deriving DecidableEq, Repr

/-- FirecrackerOptions (src lines 245-264). -/
structure FirecrackerOptions where
  Enabled : Bool
  Image : String
  KernelImage : String
  VMStartupScriptPath : String
  DockerRegistryMirrorAddress : String
deriving DecidableEq, Repr

/-- ResourceOptions (src lines 266-281).  Go `int` is embedded as `Int`;
`strconv.Itoa` agrees with `toString : Int -> String`. -/
structure ResourceOptions where
  NumCPUs : Int
  Memory : String
  DiskSpace : String
  DockerHostMountPath : String
deriving DecidableEq, Repr

/-- Options (src lines 233-243). -/
structure Options where
  ExecutorName : String
  FirecrackerOptions : FirecrackerOptions
  ResourceOptions : ResourceOptions
deriving DecidableEq, Repr

/-- const firecrackerContainerDir = "/work" (src line 25). -/
def firecrackerContainerDir : String := "/work"

/-- Models Go `path.Join` / `filepath.Join` for the clean, slash-free
component uses in this package: empty components collapse, otherwise the
components are joined with a single slash. -/
def joinPath (a b : String) : String :=
  if b = "" then a else if a = "" then b else a ++ "/" ++ b

/-! ## Image reference sanitizer (src lines 179-194)

`imagePattern` is the Go regexp
  ([^:@]+)(?::([^@]+))?(?:@sha256:([a-z0-9]\x7b64\x7d))?
and `sanitizeImage` applies `FindStringSubmatch` (leftmost, unanchored
match with leftmost-first group preferences) and rebuilds `name[:tag]`
from capture groups 1 and 2.  The embedding below implements exactly
that match: the leftmost possible start is the first character outside
`:`/`@`; the name group is the maximal run of such characters; the
optional tag group matches a `:` followed by a maximal nonempty run of
non-`@` characters; the optional digest group matches `@sha256:`
followed by exactly 64 characters in `[a-z0-9]`.  (No backtracking can
produce a different capture: the tag group stops exactly at the first
`@` or the end, and the digest group can only start at a `@`.) -/

/-- A character the `[^:@]` class accepts. -/
def isNameChar (c : Char) : Bool := !(c == ':' || c == '@')

/-- A character the `[a-z0-9]` class of the digest group accepts. -/
def isDigestChar (c : Char) : Bool :=
  (('a' ≤ c) && (c ≤ 'z')) || (('0' ≤ c) && (c ≤ '9'))

/-- Capture groups of a successful `imagePattern` match. -/
structure ImageMatch where
  name : List Char
  tag : List Char
  digest : List Char
deriving DecidableEq, Repr

/-- The optional `(?::([^@]+))?` group, tried at the residue after the
name group: it matches only when a `:` is followed by at least one
non-`@` character, and captures the maximal such run. -/
def matchTag : List Char → List Char
  | x :: r => if x = ':' then r.takeWhile (fun c => !(c == '@')) else []
  | [] => []

/-- The optional `(?:@sha256:([a-z0-9]\x7b64\x7d))?` group, tried at the
residue after the tag group. -/
def matchDigest (cs : List Char) : List Char :=
  if cs.take 8 = "@sha256:".toList then
    let d := (cs.drop 8).take 64
    if d.length = 64 && d.all isDigestChar then d else []
  else []

/-- `imagePattern.FindStringSubmatch`: `none` when the pattern matches
nowhere (which, since only the name group is mandatory, happens exactly
when no character outside `:`/`@` occurs); otherwise the three capture
groups of the leftmost match. -/
def imagePatternFind (cs : List Char) : Option ImageMatch :=
  match cs.dropWhile (fun c => !(isNameChar c)) with
  | [] => none
  | c :: rest0 =>
    let name := (c :: rest0).takeWhile isNameChar
    let rest := (c :: rest0).dropWhile isNameChar
    let tag := matchTag rest
    let rest2 := if tag = [] then rest else rest.drop (tag.length + 1)
    some { name := name, tag := tag, digest := matchDigest rest2 }

/-- sanitizeImage (src lines 184-194): on a match, return group 1 when
group 2 is empty and `group1:group2` otherwise; with no match return the
input unchanged. -/
def sanitizeImage (image : String) : String :=
  match imagePatternFind image.toList with
  | none => image
  | some m =>
    if m.tag = [] then String.mk m.name
    else String.mk (m.name ++ ':' :: m.tag)

/-- The image shape exactly as the claim states it — the WHOLE string is
`name[:tag][@sha256:digest]` with name nonempty and free of `:`/`@`, tag
nonempty and free of `@`, digest exactly 64 lowercase hex characters.
This definition follows the claim's words (not the source) in order to
compare the stated behavior with `sanitizeImage`. -/
def isLowerHexChar (c : Char) : Bool :=
  (('a' ≤ c) && (c ≤ 'f')) || (('0' ≤ c) && (c ≤ '9'))

/-- Whole-string digest suffix of the claimed shape: `@sha256:` followed
by exactly 64 lowercase hex characters and nothing else. -/
def claimDigestSuffix (cs : List Char) : Bool :=
  decide (cs.take 8 = "@sha256:".toList) &&
    decide ((cs.drop 8).length = 64) && (cs.drop 8).all isLowerHexChar

/-- The claimed shape `name[:tag][@sha256:<64 lowercase hex>]`, matched
against the whole string (see `isLowerHexChar` for provenance). -/
def claimImageShape (s : String) : Bool :=
  let cs := s.toList
  let name := cs.takeWhile isNameChar
  let rest := cs.dropWhile isNameChar
  decide (name ≠ []) &&
    (decide (rest = []) ||
      (match rest with
       | ':' :: r =>
         let t := r.takeWhile (fun c => !(c == '@'))
         decide (t ≠ []) &&
           (decide (r.drop t.length = []) || claimDigestSuffix (r.drop t.length))
       | _ => claimDigestSuffix rest))

/-- `l` contains `pat` as a contiguous substring. -/
def containsSub (l pat : List Char) : Bool :=
  (List.range (l.length + 1)).any (fun i => decide ((l.drop i).take pat.length = pat))

/-! ## Shell quoting helpers

`shellquote.Join` (external library kballard/go-shellquote) and
`quoteEnv` (package helper in a file not under src/) are used by
`formatFirecrackerCommand`.  Both are modelled from the spec. -/

/-- A character that needs no shell quoting. -/
def isShellSafe (c : Char) : Bool :=
  c.isAlphanum || c == '-' || c == '_' || c == '/' || c == '.' || c == ',' ||
    c == ':' || c == '=' || c == '@' || c == '%' || c == '+'

/-- Modelled from the spec: shell-quote one token so that arguments
containing spaces or shell metacharacters survive the remote exec —
tokens made only of safe characters pass through, anything else is
wrapped in single quotes (an embedded single quote closes the quote,
emits an escaped quote and reopens). -/
def shellQuote (s : String) : String :=
  if s = "" then
    String.mk [Char.ofNat 39, Char.ofNat 39]
  else if s.toList.all isShellSafe then s
  else
    let q : List Char := [Char.ofNat 39]
    let esc : List Char := [Char.ofNat 39, '\\', Char.ofNat 39, Char.ofNat 39]
    String.mk (q ++ s.toList.foldr
      (fun c acc => if c = Char.ofNat 39 then esc ++ acc else c :: acc) q)

/-- Modelled from the spec: `shellquote.Join` quotes every token of the
inner command and joins them with single spaces. -/
def shellquoteJoin (ws : List String) : String :=
  String.intercalate " " (ws.map shellQuote)

/-- Modelled from the spec: `quoteEnv` (package helper not under src/)
individually shell-escapes each environment assignment, keeping the
variable name and escaping the value, yielding `VAR=value` assignments
suitable to prepend ahead of a command. -/
def quoteEnv (env : List String) : List String :=
  env.map (fun e =>
    let cs := e.toList
    let name := cs.takeWhile (fun c => !(c == '='))
    let value := (cs.dropWhile (fun c => !(c == '='))).drop 1
    String.mk name ++ "=" ++ shellQuote (String.mk value))

/-! ## Command formatting -/

/-- Modelled from the spec: `formatRawOrDockerCommand` is part of this
package but not under src/ (only its callers are).  Spec section 4.2:
with no image, produce a direct argument list — the script path or the
command tokens, in the given working directory, with the declared
environment variables applied to the child process environment (not
embedded in the command line); with an image, produce a container
invocation that applies each environment assignment as a `-e` flag,
mounts the base directory, sets the working directory inside the
container, and appends the sanitized image reference and the command
tokens or script path. -/
def formatRawOrDockerCommand (spec : CommandSpec) (dir : String) (options : Options) :
    command :=
  if spec.Image = "" then
    { Key := spec.Key
      Command := if spec.ScriptPath ≠ "" then [spec.ScriptPath] else spec.Command
      Dir := joinPath dir spec.Dir
      Env := spec.Env }
  else
    { Key := spec.Key
      Command :=
        ["docker", "run", "--rm"] ++
          (spec.Env.map (fun e => ["-e", e])).flatten ++
          ["-v", dir ++ ":" ++ dir, "-w", joinPath dir spec.Dir] ++
          [sanitizeImage spec.Image] ++
          (if spec.ScriptPath ≠ "" then [spec.ScriptPath] else spec.Command)
      Dir := ""
      Env := [] }

/-- formatFirecrackerCommand (src lines 36-54): shell-quote the inner
command; if the inner command has environment assignments, prepend the
individually quoted assignments; if it has a working directory, prepend
a `cd <dir> &&` clause; wrap the resulting single string in an
`ignite exec <name> --` invocation. -/
def formatFirecrackerCommand (spec : CommandSpec) (name : String) (options : Options) :
    command :=
  let rawOrDockerCommand := formatRawOrDockerCommand spec firecrackerContainerDir options
  let innerCommand0 := shellquoteJoin rawOrDockerCommand.Command
  let innerCommand1 :=
    if rawOrDockerCommand.Env.length > 0 then
      String.intercalate " " (quoteEnv rawOrDockerCommand.Env) ++ " " ++ innerCommand0
    else innerCommand0
  let innerCommand2 :=
    if rawOrDockerCommand.Dir ≠ "" then
      "cd " ++ rawOrDockerCommand.Dir ++ " && " ++ innerCommand1
    else innerCommand1
  { Key := spec.Key
    Command := ["ignite", "exec", name, "--", innerCommand2]
    Dir := ""
    Env := [] }

/-! ## Docker daemon config (src lines 56-81) -/

/-- dockerDaemonConfigFilename (src line 63). -/
def dockerDaemonConfigFilename : String := "docker-daemon.json"

/-- One character of Go `encoding/json` string escaping (the default
encoder escapes the quote, the backslash, common control characters and
HTML-relevant characters). -/
def jsonEscapeChar (c : Char) : String :=
  if c = '"' then "\\\""
  else if c = '\\' then "\\\\"
  else if c = '\n' then "\\n"
  else if c = '\r' then "\\r"
  else if c = '\t' then "\\t"
  else if c = '<' then "\\u003c"
  else if c = '>' then "\\u003e"
  else if c = '&' then "\\u0026"
  else if c.toNat < 32 then
    let lo := c.toNat % 16
    let hi := c.toNat / 16
    let hexDigit := fun (n : Nat) =>
      if n < 10 then Char.ofNat (48 + n) else Char.ofNat (87 + n)
    String.mk ['\\', 'u', '0', '0', hexDigit hi, hexDigit lo]
  else String.mk [c]

/-- Go `json.Marshal` of a string value. -/
def jsonString (s : String) : String :=
  "\"" ++ String.join (s.toList.map jsonEscapeChar) ++ "\""

/-- `json.Marshal(&dockerDaemonConfig\x7bRegistryMirrors: []string\x7bmirrorAddress\x7d\x7d)`
(src lines 57-59, 75): a one-field object whose `registry-mirrors`
field is a one-element array.  Marshalling this struct cannot fail. -/
def dockerDaemonConfigJSON (mirrorAddress : String) : String :=
  "\x7b\"registry-mirrors\":[" ++ jsonString mirrorAddress ++ "]\x7d"

/-! ## Setup and teardown (src lines 83-177)

The effectful procedures are embedded as functions over explicit failure
oracles: `Option String` is an error slot (`none` = success), matching
Go's `error`.  Each procedure returns the ordered trace of externally
visible steps it performed together with the error it returns. -/

/-- An externally visible step performed by `setupFirecracker`. -/
inductive SetupStep where
  | wroteDaemonConfig (file content : String)
  | ran (c : command)
deriving DecidableEq, Repr

/-- An externally visible step performed by `teardownFirecracker`. -/
inductive TeardownStep where
  | ran (c : command)
  | removedDir (dir : String)
deriving DecidableEq, Repr

/-- Failure oracles for the fallible operations of `setupFirecracker`:
`os.Create`, the deferred `f.Close`, `os.WriteFile`, and the command
runner (per command). -/
structure SetupOracles where
  createRes : Option String
  closeRes : Option String
  writeRes : Option String
  runRes : command → Option String

/-- `errors.Append` (lib/errors, not under src/): nil-absorbing error
combination; the combined message keeps both parts. -/
def errAppend : Option String → Option String → Option String
  | none, b => b
  | some a, none => some a
  | some a, some b => some (a ++ "; " ++ b)

/-- newDockerDaemonConfig (src lines 65-81): create the file
`docker-daemon.json` in tmpDir (a create failure returns the error
wrapped as "creating temp file for docker daemon config"), marshal the
config (cannot fail for this struct) and write it; the write error, if
any, is returned WITHOUT an added context, combined (via the deferred
`errors.Append`) with the close error.  Returns the file path, the trace
(the write step when it succeeded) and the error. -/
def newDockerDaemonConfig (createRes closeRes writeRes : Option String)
    (tmpDir mirrorAddress : String) : (String × List SetupStep) × Option String :=
  match createRes with
  | some e => (("", []), some ("creating temp file for docker daemon config: " ++ e))
  | none =>
    let daemonConfigFile := joinPath tmpDir dockerDaemonConfigFilename
    let content := dockerDaemonConfigJSON mirrorAddress
    match writeRes with
    | some e => ((daemonConfigFile, []), errAppend (some e) closeRes)
    | none =>
      ((daemonConfigFile, [SetupStep.wroteDaemonConfig daemonConfigFile content]),
        errAppend none closeRes)

/-- firecrackerResourceFlags (src lines 153-159). -/
def firecrackerResourceFlags (options : ResourceOptions) : List String :=
  ["--cpus", toString options.NumCPUs,
   "--memory", options.Memory,
   "--size", options.DiskSpace]

/-- The copy-file pairs collected by firecrackerCopyfileFlags before
sorting (src lines 161-169): the startup script copies to its own path,
the daemon config to /etc/docker/daemon.json. -/
def copyfilePairs (vmStartupScriptPath daemonConfigFile : String) : List String :=
  (if vmStartupScriptPath ≠ "" then
    [vmStartupScriptPath ++ ":" ++ vmStartupScriptPath] else []) ++
  (if daemonConfigFile ≠ "" then
    [daemonConfigFile ++ ":" ++ "/etc/docker/daemon.json"] else [])

/-- Go `sort.Strings`: ascending lexicographic sort (byte order, which
for UTF-8 agrees with the code-point order Lean's `String` order uses). -/
def sortStrings (l : List String) : List String :=
  List.insertionSort (fun a b => a ≤ b) l

/-- Modelled from the spec: the helper `intersperse` (package util file
not under src/) renders the copy-files flag as
`--copy-files <src:dst>[,<src:dst>...]` — one flag followed by the
comma-joined pairs, and no flag at all when there are no files. -/
def intersperse (flag : String) (values : List String) : List String :=
  if values = [] then [] else [flag, String.intercalate "," values]

/-- firecrackerCopyfileFlags (src lines 161-173): collect, sort, then
intersperse with --copy-files. -/
def firecrackerCopyfileFlags (vmStartupScriptPath daemonConfigFile : String) :
    List String :=
  intersperse "--copy-files" (sortStrings (copyfilePairs vmStartupScriptPath daemonConfigFile))

/-- firecrackerVolumeFlags (src lines 175-177). -/
def firecrackerVolumeFlags (workspaceDevice firecrackerContainerDir : String) :
    List String :=
  ["--volumes", workspaceDevice ++ ":" ++ firecrackerContainerDir]

/-- The token list of the `setup.firecracker.start` command (src lines
99-114).  `flatten` in the source splices string and string-list
arguments in order, i.e. list concatenation. -/
def setupStartCommandTokens (options : Options)
    (name workspaceDevice daemonConfigFile : String) : List String :=
  ["ignite", "run", "--runtime", "docker", "--network-plugin", "cni"] ++
    firecrackerResourceFlags options.ResourceOptions ++
    firecrackerCopyfileFlags options.FirecrackerOptions.VMStartupScriptPath daemonConfigFile ++
    firecrackerVolumeFlags workspaceDevice firecrackerContainerDir ++
    ["--ssh",
     "--name", name,
     "--kernel-image", sanitizeImage options.FirecrackerOptions.KernelImage,
     sanitizeImage options.FirecrackerOptions.Image]

/-- The `startCommand` record of setupFirecracker (src lines 99-114). -/
def startCommandOf (options : Options) (name workspaceDevice daemonConfigFile : String) :
    command :=
  { Key := "setup.firecracker.start"
    Command := setupStartCommandTokens options name workspaceDevice daemonConfigFile
    Dir := ""
    Env := [] }

/-- The `startupScriptCommand` record of setupFirecracker (src lines
121-125): the startup script is executed inside the VM by its host path. -/
def startupScriptCommandOf (options : Options) (name : String) : command :=
  { Key := "setup.startup-script"
    Command := ["ignite", "exec", name, "--",
                options.FirecrackerOptions.VMStartupScriptPath]
    Dir := ""
    Env := [] }

/-- The continuation of setupFirecracker after the daemon-config phase
(src lines 98-131): run the start command (a failure aborts with the
error wrapped as "failed to start firecracker vm"); then, when a startup
script is configured, exec it inside the VM by its host path (a failure
aborts with the error wrapped as "failed to run startup script"). -/
def setupAfterConfig (o : SetupOracles) (name workspaceDevice : String)
    (options : Options) (daemonConfigFile : String) (steps0 : List SetupStep) :
    List SetupStep × Option String :=
  let startCommand := startCommandOf options name workspaceDevice daemonConfigFile
  match o.runRes startCommand with
  | some e =>
    (steps0 ++ [SetupStep.ran startCommand], some ("failed to start firecracker vm: " ++ e))
  | none =>
    if options.FirecrackerOptions.VMStartupScriptPath ≠ "" then
      let startupScriptCommand := startupScriptCommandOf options name
      match o.runRes startupScriptCommand with
      | some e =>
        (steps0 ++ [SetupStep.ran startCommand, SetupStep.ran startupScriptCommand],
          some ("failed to run startup script: " ++ e))
      | none =>
        (steps0 ++ [SetupStep.ran startCommand, SetupStep.ran startupScriptCommand], none)
    else
      (steps0 ++ [SetupStep.ran startCommand], none)

/-- setupFirecracker (src lines 88-132): when a registry mirror is
configured, generate the daemon config first (a failure aborts setup
with that error and nothing else performed); then provision the VM. -/
def setupFirecracker (o : SetupOracles) (name workspaceDevice tmpDir : String)
    (options : Options) : List SetupStep × Option String :=
  if options.FirecrackerOptions.DockerRegistryMirrorAddress ≠ "" then
    match newDockerDaemonConfig o.createRes o.closeRes o.writeRes tmpDir
        options.FirecrackerOptions.DockerRegistryMirrorAddress with
    | ((_, steps), some e) => (steps, some e)
    | ((daemonConfigFile, steps), none) =>
      setupAfterConfig o name workspaceDevice options daemonConfigFile steps
  else
    setupAfterConfig o name workspaceDevice options "" []

/-- The `removeCommand` record of teardownFirecracker (src lines 137-141). -/
def removeCommandOf (name : String) : command :=
  { Key := "teardown.firecracker.remove"
    Command := ["ignite", "rm", "-f", name]
    Dir := ""
    Env := [] }

/-- teardownFirecracker (src lines 136-151): issue `ignite rm -f <name>`
(a failure is only logged), then remove tmpDir (a failure is only
logged); always return nil.  Returns (steps, logged messages, error). -/
def teardownFirecracker (runRes : command → Option String) (removeAllRes : Option String)
    (name tmpDir : String) : List TeardownStep × List String × Option String :=
  let removeCommand := removeCommandOf name
  let logs1 : List String :=
    match runRes removeCommand with
    | some e => ["Failed to remove firecracker vm: " ++ e]
    | none => []
  let logs2 : List String :=
    match removeAllRes with
    | some e => ["Failed to remove firecracker state tmp dir: " ++ e]
    | none => []
  ([TeardownStep.ran removeCommand, TeardownStep.removedDir tmpDir], logs1 ++ logs2, none)

/-! ## Runner construction (src lines 283-346) -/

/-- The runner variant chosen by NewRunner. -/
inductive RunnerKind where
  | docker (dir : String) (options : Options)
  | firecracker (name workspaceDevice : String) (options : Options)
deriving DecidableEq, Repr

/-- NewRunner (src lines 284-296): the bare docker runner unless
Firecracker is enabled; the firecracker runner is named by the executor
name and uses the given directory as workspace device. -/
def NewRunner (dir : String) (options : Options) : RunnerKind :=
  if !options.FirecrackerOptions.Enabled then RunnerKind.docker dir options
  else RunnerKind.firecracker options.ExecutorName dir options

/-- dockerRunner.Setup (src lines 306-308): returns nil, does nothing. -/
def dockerRunnerSetup : List SetupStep × Option String := ([], none)

/-- dockerRunner.Teardown (src lines 310-312): returns nil, does nothing. -/
def dockerRunnerTeardown : List TeardownStep × Option String := ([], none)

/-- dockerRunner.Run (src lines 314-316): the command handed to the
execution primitive `runCommand`. -/
def dockerRunnerRun (dir : String) (options : Options) (spec : CommandSpec) : command :=
  formatRawOrDockerCommand spec dir options

/-- firecrackerRunner.Run (src lines 344-346): the command handed to the
execution primitive `runCommand`. -/
def firecrackerRunnerRun (name : String) (options : Options) (spec : CommandSpec) :
    command :=
  formatFirecrackerCommand spec name options

/-! ## Concrete sample values for claim instances -/

/-- A concrete Options value with no registry mirror and a startup
script. -/
def optionsPlain : Options :=
  { ExecutorName := "executor-1"
    FirecrackerOptions :=
      { Enabled := true
        Image := "ignite-ubuntu"
        KernelImage := "ignite-kernel"
        VMStartupScriptPath := "/opt/startup.sh"
        DockerRegistryMirrorAddress := "" }
    ResourceOptions :=
      { NumCPUs := 4, Memory := "12G", DiskSpace := "20G", DockerHostMountPath := "" } }

/-- A concrete Options value with a registry mirror and no startup
script. -/
def optionsMirror : Options :=
  { ExecutorName := "executor-1"
    FirecrackerOptions :=
      { Enabled := true
        Image := "img"
        KernelImage := "kimg"
        VMStartupScriptPath := ""
        DockerRegistryMirrorAddress := "http://mirror.local" }
    ResourceOptions :=
      { NumCPUs := 2, Memory := "4G", DiskSpace := "10G", DockerHostMountPath := "" } }

/-- A concrete Options value with Firecracker disabled (bare tier). -/
def optionsBare : Options :=
  { ExecutorName := "executor-2"
    FirecrackerOptions :=
      { Enabled := false
        Image := ""
        KernelImage := ""
        VMStartupScriptPath := ""
        DockerRegistryMirrorAddress := "" }
    ResourceOptions :=
      { NumCPUs := 1, Memory := "1G", DiskSpace := "5G", DockerHostMountPath := "" } }

/-- The oracle set in which every fallible operation succeeds. -/
def oraclesOK : SetupOracles :=
  { createRes := none, closeRes := none, writeRes := none, runRes := fun _ => none }

/-! ## General lemmas about the image sanitizer -/

theorem dropWhile_head_false {p : Char → Bool} :
    ∀ (l : List Char) (c : Char) (r : List Char), l.dropWhile p = c :: r → p c = false := by
  intro l
  induction l with
  | nil => intro c r h; cases h
  | cons a l ih =>
    intro c r h
    by_cases hp : p a = true
    · rw [List.dropWhile_cons_of_pos hp] at h
      exact ih c r h
    · rw [List.dropWhile_cons_of_neg hp] at h
      cases h
      simpa using hp

theorem imagePatternFind_eq_none_iff (cs : List Char) :
    imagePatternFind cs = none ↔ ∀ c ∈ cs, isNameChar c = false := by
  constructor
  · intro hnone c hc
    by_contra hname
    have hname' : isNameChar c = true := by
      revert hname; cases isNameChar c <;> simp
    rcases hd : cs.dropWhile (fun x => !(isNameChar x)) with _ | ⟨d, rest⟩
    · have := List.dropWhile_eq_nil_iff.mp hd c hc
      simp [hname'] at this
    · simp [imagePatternFind, hd] at hnone
  · intro hall
    have hnil : cs.dropWhile (fun x => !(isNameChar x)) = [] :=
      List.dropWhile_eq_nil_iff.mpr (fun x hx => by simp [hall x hx])
    simp [imagePatternFind, hnil]

/-- Soundness of a successful match: the name group is a nonempty run of
`[^:@]` characters and the tag group is free of `@`. -/
theorem imagePatternFind_sound {cs : List Char} {m : ImageMatch}
    (h : imagePatternFind cs = some m) :
    m.name ≠ [] ∧ (∀ c ∈ m.name, isNameChar c = true) ∧
      (∀ c ∈ m.tag, (c == '@') = false) := by
  rcases hd : cs.dropWhile (fun x => !(isNameChar x)) with _ | ⟨d, rest⟩
  · simp [imagePatternFind, hd] at h
  · have hdname : isNameChar d = true := by
      have := dropWhile_head_false cs d rest hd
      simpa using this
    simp only [imagePatternFind, hd] at h
    obtain rfl := (Option.some_inj.mp h).symm
    refine ⟨?_, ?_, ?_⟩
    · simp [List.takeWhile_cons_of_pos hdname]
    · intro c hc
      exact List.mem_takeWhile_imp hc
    · intro c hc
      rcases hrest : (d :: rest).dropWhile isNameChar with _ | ⟨x, r⟩
      · rw [hrest] at hc; cases hc
      · rw [hrest] at hc
        simp only [matchTag] at hc
        by_cases hx : x = ':'
        · rw [if_pos hx] at hc
          have := List.mem_takeWhile_imp hc
          simpa using this
        · rw [if_neg hx] at hc; cases hc

/-- The leftmost match on `name ++ suffix`, when `name` is a nonempty run
of `[^:@]` characters and `suffix` starts with `:` or `@` (or is empty):
the name group is exactly `name` and the residue is `suffix`. -/
theorem imagePatternFind_append (name suffix : List Char) (hn : name ≠ [])
    (hname : ∀ c ∈ name, isNameChar c = true)
    (hsuf : ∀ c, suffix.head? = some c → isNameChar c = false) :
    imagePatternFind (name ++ suffix) =
      some { name := name,
             tag := matchTag suffix,
             digest := matchDigest (if matchTag suffix = [] then suffix
                                    else suffix.drop ((matchTag suffix).length + 1)) } := by
  rcases name with _ | ⟨n0, nr⟩
  · exact absurd rfl hn
  have h0 : isNameChar n0 = true := hname n0 (by simp)
  have htake : (suffix.takeWhile isNameChar) = [] := by
    rcases hs : suffix with _ | ⟨s0, sr⟩
    · rfl
    · have : isNameChar s0 = false := hsuf s0 (by simp [hs])
      simp [List.takeWhile_cons, this]
  have hdropsuf : (suffix.dropWhile isNameChar) = suffix := by
    rcases hs : suffix with _ | ⟨s0, sr⟩
    · rfl
    · have : isNameChar s0 = false := hsuf s0 (by simp [hs])
      rw [List.dropWhile_cons_of_neg (by simp [this])]
  have hdw : ((n0 :: nr) ++ suffix).dropWhile (fun x => !(isNameChar x)) =
      n0 :: (nr ++ suffix) := by
    show ((n0 :: (nr ++ suffix)).dropWhile (fun x => !(isNameChar x))) = _
    rw [List.dropWhile_cons_of_neg (by simp [h0])]
  have htw : ((n0 :: nr) ++ suffix).takeWhile isNameChar = n0 :: nr := by
    rw [List.takeWhile_append_of_pos hname, htake, List.append_nil]
  have hdw2 : ((n0 :: nr) ++ suffix).dropWhile isNameChar = suffix := by
    rw [List.dropWhile_append_of_pos hname, hdropsuf]
  simp only [imagePatternFind, hdw]
  rw [show n0 :: (nr ++ suffix) = (n0 :: nr) ++ suffix from rfl, htw, hdw2]

/-- sanitizeImage on `name ++ suffix` under the same conditions: the
result keeps the name and the tag matched at the start of the suffix. -/
theorem sanitizeImage_append (name suffix : List Char) (hn : name ≠ [])
    (hname : ∀ c ∈ name, isNameChar c = true)
    (hsuf : ∀ c, suffix.head? = some c → isNameChar c = false) :
    sanitizeImage (String.mk (name ++ suffix)) =
      (if matchTag suffix = [] then String.mk name
       else String.mk (name ++ ':' :: matchTag suffix)) := by
  have hfind := imagePatternFind_append name suffix hn hname hsuf
  simp only [sanitizeImage]
  rw [show (String.mk (name ++ suffix)).toList = name ++ suffix from rfl, hfind]

theorem containsSub_mem {l pat : List Char} (h : containsSub l pat = true) :
    ∀ c ∈ pat, c ∈ l := by
  intro c hc
  unfold containsSub at h
  rw [List.any_eq_true] at h
  obtain ⟨i, _, hi⟩ := h
  have heq : (l.drop i).take pat.length = pat := of_decide_eq_true hi
  have hmem : c ∈ (l.drop i).take pat.length := by rw [heq]; exact hc
  exact List.drop_subset i l (List.take_subset _ _ hmem)

theorem not_containsSub_of_not_mem {l pat : List Char} (c : Char)
    (hc : c ∈ pat) (hl : c ∉ l) : containsSub l pat = false := by
  by_contra h
  have h' : containsSub l pat = true := by
    revert h; cases containsSub l pat <;> simp
  exact hl (containsSub_mem h' c hc)

theorem matchTag_cons_colon (r : List Char) :
    matchTag (':' :: r) = r.takeWhile (fun c => !(c == '@')) := by
  simp [matchTag]

theorem matchTag_eq_self {tag : List Char} (htag : ∀ c ∈ tag, (c == '@') = false) :
    matchTag (':' :: tag) = tag := by
  rw [matchTag_cons_colon]
  exact List.takeWhile_eq_self_iff.mpr (fun c hc => by simp [htag c hc])

/-! ## Claim theorems -/

/-- C7: sanitizeImage is idempotent — applying it twice yields the same
result as applying it once — and its output never contains the substring
`@sha256:`, for every input string. -/
theorem C7_theorem (s : String) :
    sanitizeImage (sanitizeImage s) = sanitizeImage s ∧
      containsSub (sanitizeImage s).toList ("@sha256:".toList) = false := by
  rcases hfind : imagePatternFind s.toList with _ | ⟨m⟩
  · have hall := (imagePatternFind_eq_none_iff s.toList).mp hfind
    have hfind' : imagePatternFind s.data = none := hfind
    have hs : sanitizeImage s = s := by simp [sanitizeImage, hfind']
    refine ⟨by rw [hs, hs], ?_⟩
    rw [hs]
    refine not_containsSub_of_not_mem 's' (by decide) ?_
    intro hmem
    have := hall 's' hmem
    exact absurd this (by decide)
  · obtain ⟨hn, hname, htag⟩ := imagePatternFind_sound hfind
    have hfind' : imagePatternFind s.data = some m := hfind
    have hat : '@' ∉ m.name := by
      intro h
      exact absurd (hname '@' h) (by decide)
    by_cases ht : m.tag = []
    · have hs : sanitizeImage s = String.mk m.name := by
        simp [sanitizeImage, hfind', ht]
      refine ⟨?_, ?_⟩
      · rw [hs]
        have happ := sanitizeImage_append m.name [] hn hname
          (by intro c hc; simp at hc)
        simpa using happ
      · rw [hs]
        exact not_containsSub_of_not_mem '@' (by decide) hat
    · have hs : sanitizeImage s = String.mk (m.name ++ ':' :: m.tag) := by
        simp [sanitizeImage, hfind', ht]
      refine ⟨?_, ?_⟩
      · rw [hs]
        have happ := sanitizeImage_append m.name (':' :: m.tag) hn hname
          (by intro c hc; simp at hc; subst hc; decide)
        rw [matchTag_eq_self htag, if_neg ht] at happ
        exact happ
      · rw [hs]
        refine not_containsSub_of_not_mem '@' (by decide) ?_
        intro h
        rcases List.mem_append.mp h with h1 | h2
        · exact hat h1
        · rcases List.mem_cons.mp h2 with h3 | h4
          · exact absurd h3 (by decide)
          · have := htag '@' h4
            exact absurd this (by decide)

/-- C2 counterexample: `img@sha256:short` does NOT match the claimed
shape `name[:tag][@sha256:<64 lowercase hex>]` (the digest is not 64
characters), so the claim requires sanitizeImage to return it unchanged;
but sanitizeImage applies the pattern to the leftmost matching substring
and returns `img`, which differs from the input. -/
theorem C2_counterexample :
    claimImageShape "img@sha256:short" = false ∧
      sanitizeImage "img@sha256:short" = "img" ∧
      ("img" : String) ≠ "img@sha256:short" := by
  refine ⟨by decide, by decide, by decide⟩

/-- C2 (amended): for strings of the shape `name[:tag][@sha256:digest]`
(name a nonempty run of characters outside `:`/`@`, tag a nonempty run
of characters outside `@`, digest 64 characters of `[a-z0-9]`, which
includes all 64-character lowercase hex digests), sanitizeImage returns
`name:tag` when a tag is present and `name` alone otherwise, always
dropping the digest; it never errors.  A string that does not match the
shape is NOT always returned unchanged (see the counterexample): the
guarantee that survives is that strings in which the mandatory name part
can match nowhere — strings made only of `:` and `@` — come back
unchanged. -/
theorem C2_theorem (name tag digest : String)
    (hn : name.toList ≠ []) (hname : ∀ c ∈ name.toList, isNameChar c = true)
    (ht : tag.toList ≠ []) (htag : ∀ c ∈ tag.toList, (c == '@') = false)
    (hd : digest.toList.length = 64)
    (hdig : ∀ c ∈ digest.toList, isDigestChar c = true) :
    sanitizeImage (name ++ ":" ++ tag ++ "@sha256:" ++ digest) = name ++ ":" ++ tag ∧
      sanitizeImage (name ++ "@sha256:" ++ digest) = name ∧
      sanitizeImage (name ++ ":" ++ tag) = name ++ ":" ++ tag ∧
      sanitizeImage name = name ∧
      (∀ s : String, (∀ c ∈ s.toList, c = ':' ∨ c = '@') → sanitizeImage s = s) := by
  have hnotag : ∀ c ∈ tag.toList, (!(c == '@')) = true := fun c hc => by simp [htag c hc]
  refine ⟨?_, ?_, ?_, ?_, ?_⟩
  · have harg : name ++ ":" ++ tag ++ "@sha256:" ++ digest =
        String.mk (name.toList ++
          ':' :: (tag.toList ++ ("@sha256:".toList ++ digest.toList))) := by
      show String.mk ((((name.toList ++ [':']) ++ tag.toList) ++
        "@sha256:".toList) ++ digest.toList) = _
      exact congrArg String.mk (by simp [List.append_assoc])
    have happ := sanitizeImage_append name.toList
      (':' :: (tag.toList ++ ("@sha256:".toList ++ digest.toList))) hn hname
      (by intro c hc; simp at hc; subst hc; decide)
    have hmt : matchTag (':' :: (tag.toList ++ ("@sha256:".toList ++ digest.toList))) =
        tag.toList := by
      rw [matchTag_cons_colon, List.takeWhile_append_of_pos hnotag]
      rw [show ("@sha256:".toList ++ digest.toList) =
        '@' :: ("sha256:".toList ++ digest.toList) from rfl]
      rw [List.takeWhile_cons_of_neg (by decide), List.append_nil]
    rw [harg, happ, hmt, if_neg ht]
    show String.mk _ = String.mk ((name.toList ++ [':']) ++ tag.toList)
    exact congrArg String.mk (by simp [List.append_assoc])
  · have harg : name ++ "@sha256:" ++ digest =
        String.mk (name.toList ++ ("@sha256:".toList ++ digest.toList)) := by
      show String.mk ((name.toList ++ "@sha256:".toList) ++ digest.toList) = _
      exact congrArg String.mk (by simp [List.append_assoc])
    have happ := sanitizeImage_append name.toList
      ("@sha256:".toList ++ digest.toList) hn hname
      (by intro c hc; simp at hc; subst hc; decide)
    have hmt : matchTag ("@sha256:".toList ++ digest.toList) = [] := by
      rw [show ("@sha256:".toList ++ digest.toList) =
        '@' :: ("sha256:".toList ++ digest.toList) from rfl]
      simp [matchTag]
    rw [harg, happ, hmt, if_pos rfl]
    rfl
  · have harg : name ++ ":" ++ tag = String.mk (name.toList ++ ':' :: tag.toList) := by
      show String.mk ((name.toList ++ [':']) ++ tag.toList) = _
      exact congrArg String.mk (by simp [List.append_assoc])
    have happ := sanitizeImage_append name.toList (':' :: tag.toList) hn hname
      (by intro c hc; simp at hc; subst hc; decide)
    rw [harg, happ, matchTag_eq_self htag, if_neg ht]
  · have happ := sanitizeImage_append name.toList [] hn hname
      (by intro c hc; simp at hc)
    simpa using happ
  · intro s hall
    have hnone : imagePatternFind s.toList = none := by
      refine (imagePatternFind_eq_none_iff s.toList).mpr ?_
      intro c hc
      rcases hall c hc with h | h <;> subst h <;> decide
    have hnone' : imagePatternFind s.data = none := hnone
    simp [sanitizeImage, hnone']

/-- Witness for C2: the amended theorem evaluated at `repo/img`, tag
`tag` and a concrete 64-character digest reproduces the spec's
round-trip examples. -/
theorem C2_witness :
    sanitizeImage
        "repo/img:tag@sha256:aaaaaaaaaaaaaaaaaaaaaaaaaaaaaaaaaaaaaaaaaaaaaaaaaaaaaaaaaaaaaaaa"
        = "repo/img:tag" ∧
      sanitizeImage
        "repo/img@sha256:aaaaaaaaaaaaaaaaaaaaaaaaaaaaaaaaaaaaaaaaaaaaaaaaaaaaaaaaaaaaaaaa"
        = "repo/img" ∧
      sanitizeImage "repo/img:tag" = "repo/img:tag" := by
  have h := C2_theorem "repo/img" "tag"
    "aaaaaaaaaaaaaaaaaaaaaaaaaaaaaaaaaaaaaaaaaaaaaaaaaaaaaaaaaaaaaaaa"
    (by decide) (by decide) (by decide) (by decide) (by decide) (by decide)
  exact ⟨h.1, h.2.1, h.2.2.1⟩

/-! ## Lemmas about setupAfterConfig traces -/

/-- Whatever the oracle outcomes, the trace of setupAfterConfig begins
with steps0 and the start command is always run. -/
theorem setupAfterConfig_mem_start (o : SetupOracles) (name workspaceDevice : String)
    (options : Options) (daemonConfigFile : String) (steps0 : List SetupStep) :
    SetupStep.ran (startCommandOf options name workspaceDevice daemonConfigFile) ∈
      (setupAfterConfig o name workspaceDevice options daemonConfigFile steps0).1 := by
  simp only [setupAfterConfig]
  rcases hr : o.runRes (startCommandOf options name workspaceDevice daemonConfigFile)
    with _ | e
  · by_cases hs : options.FirecrackerOptions.VMStartupScriptPath ≠ ""
    · rcases hsc : o.runRes (startupScriptCommandOf options name) with _ | e2 <;>
        simp [hs, hsc]
    · simp [hs]
  · simp

/-- Every step of steps0 remains in the trace of setupAfterConfig. -/
theorem setupAfterConfig_mem_steps0 (o : SetupOracles) (name workspaceDevice : String)
    (options : Options) (daemonConfigFile : String) (steps0 : List SetupStep)
    (s : SetupStep) (hs : s ∈ steps0) :
    s ∈ (setupAfterConfig o name workspaceDevice options daemonConfigFile steps0).1 := by
  simp only [setupAfterConfig]
  rcases hr : o.runRes (startCommandOf options name workspaceDevice daemonConfigFile)
    with _ | e
  · by_cases hp : options.FirecrackerOptions.VMStartupScriptPath ≠ ""
    · rcases hsc : o.runRes (startupScriptCommandOf options name) with _ | e2 <;>
        simp [hp, hsc, hs]
    · simp [hp, hs]
  · simp [hs]

/-- When the start command succeeds and a startup script is configured,
the startup-script command is run. -/
theorem setupAfterConfig_mem_script (o : SetupOracles) (name workspaceDevice : String)
    (options : Options) (daemonConfigFile : String) (steps0 : List SetupStep)
    (hstart : o.runRes (startCommandOf options name workspaceDevice daemonConfigFile) = none)
    (hs : options.FirecrackerOptions.VMStartupScriptPath ≠ "") :
    SetupStep.ran (startupScriptCommandOf options name) ∈
      (setupAfterConfig o name workspaceDevice options daemonConfigFile steps0).1 := by
  simp only [setupAfterConfig, hstart]
  rcases hsc : o.runRes (startupScriptCommandOf options name) with _ | e2 <;>
    simp [hs, hsc]

/-- The steps setupAfterConfig appends to steps0 are all command runs —
it never writes a daemon config itself. -/
theorem setupAfterConfig_appended_are_ran (o : SetupOracles) (name workspaceDevice : String)
    (options : Options) (daemonConfigFile : String) (steps0 : List SetupStep) :
    ∃ l, (setupAfterConfig o name workspaceDevice options daemonConfigFile steps0).1 =
        steps0 ++ l ∧ ∀ s ∈ l, ∃ c, s = SetupStep.ran c := by
  simp only [setupAfterConfig]
  rcases hr : o.runRes (startCommandOf options name workspaceDevice daemonConfigFile)
    with _ | e
  · by_cases hp : options.FirecrackerOptions.VMStartupScriptPath ≠ ""
    · rcases hsc : o.runRes (startupScriptCommandOf options name) with _ | e2
      · refine ⟨[SetupStep.ran (startCommandOf options name workspaceDevice daemonConfigFile),
          SetupStep.ran (startupScriptCommandOf options name)], by simp [hp, hsc], ?_⟩
        intro s hs
        rcases List.mem_cons.mp hs with h | h
        · exact ⟨_, h⟩
        · rcases List.mem_cons.mp h with h2 | h2
          · exact ⟨_, h2⟩
          · cases h2
      · refine ⟨[SetupStep.ran (startCommandOf options name workspaceDevice daemonConfigFile),
          SetupStep.ran (startupScriptCommandOf options name)], by simp [hp, hsc], ?_⟩
        intro s hs
        rcases List.mem_cons.mp hs with h | h
        · exact ⟨_, h⟩
        · rcases List.mem_cons.mp h with h2 | h2
          · exact ⟨_, h2⟩
          · cases h2
    · refine ⟨[SetupStep.ran (startCommandOf options name workspaceDevice daemonConfigFile)],
        by simp [hp], ?_⟩
      intro s hs
      rcases List.mem_cons.mp hs with h | h
      · exact ⟨_, h⟩
      · cases h
  · refine ⟨[SetupStep.ran (startCommandOf options name workspaceDevice daemonConfigFile)],
      by simp, ?_⟩
    intro s hs
    rcases List.mem_cons.mp hs with h | h
    · exact ⟨_, h⟩
    · cases h

/-- C1 counterexample: for the specification with command `echo hi`,
environment `FOO=bar` and working directory `sub` (no image), the
formatted inner command carries environment assignments and a non-empty
working directory, yet the single string passed to the remote exec is
`cd /work/sub && FOO=bar echo hi` — the `cd <dir> &&` clause comes
FIRST, before the environment assignments, not after them as the claim
requires (the claim's order would read `FOO=bar cd /work/sub && echo hi`). -/
theorem C1_counterexample :
    (formatFirecrackerCommand
        { Key := "k", Image := "", ScriptPath := "", Command := ["echo", "hi"],
          Dir := "sub", Env := ["FOO=bar"] }
        "vm" optionsPlain).Command =
      ["ignite", "exec", "vm", "--", "cd /work/sub && FOO=bar echo hi"] ∧
      ("cd /work/sub && FOO=bar echo hi" : String) ≠
        "FOO=bar cd /work/sub && echo hi" := by
  exact ⟨by decide, by decide⟩

/-- C1 (amended): when the formatted inner command carries environment
assignments and a non-empty working directory, the single shell-quoted
string passed to the remote-exec invocation places the `cd <dir> &&`
clause FIRST, then the environment assignments, then the command tokens
— not environment assignments first as the claim states. -/
theorem C1_theorem (spec : CommandSpec) (name : String) (options : Options) (r : command)
    (hr : formatRawOrDockerCommand spec firecrackerContainerDir options = r)
    (henv : r.Env ≠ []) (hdir : r.Dir ≠ "") :
    (formatFirecrackerCommand spec name options).Command =
      ["ignite", "exec", name, "--",
        "cd " ++ r.Dir ++ " && " ++
          String.intercalate " " (quoteEnv r.Env) ++ " " ++ shellquoteJoin r.Command] := by
  have hlen : r.Env.length > 0 := List.length_pos.mpr henv
  simp [formatFirecrackerCommand, hr, hlen, hdir, String.append_assoc]

/-- Witness for C1: the amended order evaluated at a concrete
specification. -/
theorem C1_witness :
    (formatFirecrackerCommand
        { Key := "w", Image := "", ScriptPath := "", Command := ["ls", "-la"],
          Dir := "d", Env := ["A=b"] }
        "vm2" optionsPlain).Command =
      ["ignite", "exec", "vm2", "--", "cd /work/d && A=b ls -la"] := by
  have h := C1_theorem
    { Key := "w", Image := "", ScriptPath := "", Command := ["ls", "-la"],
      Dir := "d", Env := ["A=b"] }
    "vm2" optionsPlain
    { Key := "w", Command := ["ls", "-la"], Dir := "/work/d", Env := ["A=b"] }
    (by decide) (by decide) (by decide)
  exact h.trans (by decide)

/-- C3: the micro-VM start invocation is exactly
`ignite run --runtime docker --network-plugin cni --cpus <n> --memory
<mem> --size <disk> [copy-files flags] --volumes <device>:/work --ssh
--name <name> --kernel-image <sanitized kernel> <sanitized image>`, in
exactly that order, with the final base-VM image passed through the
sanitizer; and the command with these tokens is what Setup runs. -/
theorem C3_theorem (options : Options) (name workspaceDevice daemonConfigFile : String)
    (tmpDir : String) (o : SetupOracles)
    (hmirror : options.FirecrackerOptions.DockerRegistryMirrorAddress = "") :
    setupStartCommandTokens options name workspaceDevice daemonConfigFile =
      ["ignite", "run", "--runtime", "docker", "--network-plugin", "cni",
       "--cpus", toString options.ResourceOptions.NumCPUs,
       "--memory", options.ResourceOptions.Memory,
       "--size", options.ResourceOptions.DiskSpace] ++
      firecrackerCopyfileFlags options.FirecrackerOptions.VMStartupScriptPath
        daemonConfigFile ++
      ["--volumes", workspaceDevice ++ ":/work",
       "--ssh", "--name", name,
       "--kernel-image", sanitizeImage options.FirecrackerOptions.KernelImage,
       sanitizeImage options.FirecrackerOptions.Image] ∧
    SetupStep.ran (startCommandOf options name workspaceDevice "") ∈
      (setupFirecracker o name workspaceDevice tmpDir options).1 := by
  constructor
  · rw [setupStartCommandTokens, firecrackerResourceFlags, firecrackerVolumeFlags,
      firecrackerContainerDir]
    rw [show workspaceDevice ++ ":" ++ "/work" = workspaceDevice ++ ":/work" from
      (String.append_assoc workspaceDevice ":" "/work").trans rfl]
    simp [List.append_assoc]
  · rw [setupFirecracker, if_neg (by simp [hmirror])]
    exact setupAfterConfig_mem_start o name workspaceDevice options "" []

/-- Witness for C3 at concrete options. -/
theorem C3_witness :
    setupStartCommandTokens optionsPlain "vm" "/dev/sda" "" =
      ["ignite", "run", "--runtime", "docker", "--network-plugin", "cni",
       "--cpus", "4", "--memory", "12G", "--size", "20G",
       "--copy-files", "/opt/startup.sh:/opt/startup.sh",
       "--volumes", "/dev/sda:/work",
       "--ssh", "--name", "vm",
       "--kernel-image", "ignite-kernel", "ignite-ubuntu"] ∧
    SetupStep.ran (startCommandOf optionsPlain "vm" "/dev/sda" "") ∈
      (setupFirecracker oraclesOK "vm" "/dev/sda" "/tmp/state" optionsPlain).1 := by
  have h := C3_theorem optionsPlain "vm" "/dev/sda" "" "/tmp/state" oraclesOK (by decide)
  exact ⟨h.1.trans (by decide), h.2⟩

/-- C4 counterexample: when writing the daemon-config file fails with
the underlying error `disk full` (file creation and close succeeding,
mirror configured), Setup aborts — but the error it propagates is
exactly the raw `disk full`, with NO step context prepended, unlike
every wrapped error of this code path (`<context>: <cause>`).  This
refutes the claim that a failure of any of the three steps propagates an
error wrapped with the failing step's context. -/
theorem C4_counterexample :
    setupFirecracker
        { createRes := none, closeRes := none, writeRes := some "disk full",
          runRes := fun _ => none }
        "vm" "/dev/sda" "/tmp/state" optionsMirror = ([], some "disk full") ∧
      ∀ w : String, ("disk full" : String) ≠ w ++ ": " ++ "disk full" := by
  constructor
  · decide
  · intro w h
    have h2 := congrArg String.length h
    rw [String.length_append, String.length_append] at h2
    rw [show ("disk full" : String).length = 9 from rfl,
      show (": " : String).length = 2 from rfl] at h2
    omega

/-- C4 (amended): every failing Setup step aborts Setup; the VM-start
and startup-script failures propagate wrapped with the failing step's
context, and a startup-script failure leaves the VM started with no
further command issued (no cleanup); a failure creating the daemon
config file is wrapped as well — but a failure WRITING the daemon config
file propagates the raw error without added context. -/
theorem C4_theorem (o : SetupOracles) (name workspaceDevice tmpDir : String)
    (options : Options) :
    (∀ e, options.FirecrackerOptions.DockerRegistryMirrorAddress ≠ "" →
      o.createRes = some e →
      setupFirecracker o name workspaceDevice tmpDir options =
        ([], some ("creating temp file for docker daemon config: " ++ e))) ∧
    (∀ e, options.FirecrackerOptions.DockerRegistryMirrorAddress ≠ "" →
      o.createRes = none → o.closeRes = none → o.writeRes = some e →
      setupFirecracker o name workspaceDevice tmpDir options = ([], some e)) ∧
    (∀ e, options.FirecrackerOptions.DockerRegistryMirrorAddress = "" →
      o.runRes (startCommandOf options name workspaceDevice "") = some e →
      setupFirecracker o name workspaceDevice tmpDir options =
        ([SetupStep.ran (startCommandOf options name workspaceDevice "")],
         some ("failed to start firecracker vm: " ++ e))) ∧
    (∀ e, options.FirecrackerOptions.DockerRegistryMirrorAddress = "" →
      o.runRes (startCommandOf options name workspaceDevice "") = none →
      options.FirecrackerOptions.VMStartupScriptPath ≠ "" →
      o.runRes (startupScriptCommandOf options name) = some e →
      setupFirecracker o name workspaceDevice tmpDir options =
        ([SetupStep.ran (startCommandOf options name workspaceDevice ""),
          SetupStep.ran (startupScriptCommandOf options name)],
         some ("failed to run startup script: " ++ e))) := by
  refine ⟨?_, ?_, ?_, ?_⟩
  · intro e hm hc
    rw [setupFirecracker, if_pos hm]
    simp [newDockerDaemonConfig, hc]
  · intro e hm hc hcl hw
    rw [setupFirecracker, if_pos hm]
    simp [newDockerDaemonConfig, hc, hcl, hw, errAppend]
  · intro e hm hrun
    rw [setupFirecracker, if_neg (by simp [hm])]
    simp [setupAfterConfig, hrun]
  · intro e hm hstart hpath hscript
    rw [setupFirecracker, if_neg (by simp [hm])]
    simp [setupAfterConfig, hstart, hpath, hscript]

/-- Witness for C4: the amended behaviors at concrete oracles. -/
theorem C4_witness :
    setupFirecracker
        { createRes := some "boom", closeRes := none, writeRes := none,
          runRes := fun _ => none }
        "vm" "/dev/sda" "/tmp/state" optionsMirror =
      ([], some "creating temp file for docker daemon config: boom") ∧
    setupFirecracker
        { createRes := none, closeRes := none, writeRes := none,
          runRes := fun _ => some "bang" }
        "vm" "/dev/sda" "/tmp/state" optionsPlain =
      ([SetupStep.ran (startCommandOf optionsPlain "vm" "/dev/sda" "")],
       some ("failed to start firecracker vm: bang")) ∧
    setupFirecracker
        { createRes := none, closeRes := none, writeRes := none,
          runRes := fun c => if c.Key = "setup.startup-script" then some "bad" else none }
        "vm" "/dev/sda" "/tmp/state" optionsPlain =
      ([SetupStep.ran (startCommandOf optionsPlain "vm" "/dev/sda" ""),
        SetupStep.ran (startupScriptCommandOf optionsPlain "vm")],
       some ("failed to run startup script: bad")) := by
  refine ⟨?_, ?_, ?_⟩
  · exact (C4_theorem
      { createRes := some "boom", closeRes := none, writeRes := none,
        runRes := fun _ => none }
      "vm" "/dev/sda" "/tmp/state" optionsMirror).1 "boom" (by decide) rfl
  · exact (C4_theorem
      { createRes := none, closeRes := none, writeRes := none,
        runRes := fun _ => some "bang" }
      "vm" "/dev/sda" "/tmp/state" optionsPlain).2.2.1 "bang" (by decide) rfl
  · exact (C4_theorem
      { createRes := none, closeRes := none, writeRes := none,
        runRes := fun c => if c.Key = "setup.startup-script" then some "bad" else none }
      "vm" "/dev/sda" "/tmp/state" optionsPlain).2.2.2 "bad" (by decide) (by decide)
      (by decide) (by decide)

/-- C5: whatever the outcomes of the remove-VM invocation and the
temporary-directory removal, Teardown performs BOTH steps in order — the
`ignite rm -f <name>` invocation and the removal of tmpDir — and returns
no error; every failure is only logged.  Because the embedding is
stateless in the runner, this holds for any prior history, in particular
with no prior successful Setup or on a second call. -/
theorem C5_theorem (runRes : command → Option String) (removeAllRes : Option String)
    (name tmpDir : String) :
    (teardownFirecracker runRes removeAllRes name tmpDir).1 =
      [TeardownStep.ran (removeCommandOf name), TeardownStep.removedDir tmpDir] ∧
    (teardownFirecracker runRes removeAllRes name tmpDir).2.2 = none := by
  exact ⟨rfl, rfl⟩

/-- C6: the copy-files pairs are listed in lexicographically sorted
order whatever the collection order; the daemon-config pair always has
destination /etc/docker/daemon.json; and no copy-files flag is emitted
when there is nothing to copy. -/
theorem C6_theorem (script daemonFile : String) :
    List.Sorted (fun a b : String => a ≤ b)
      (sortStrings (copyfilePairs script daemonFile)) ∧
    (∀ l : List String, List.Sorted (fun a b : String => a ≤ b) (sortStrings l)) ∧
    (sortStrings (copyfilePairs script daemonFile)).Perm
      (copyfilePairs script daemonFile) ∧
    (daemonFile ≠ "" → (daemonFile ++ ":" ++ "/etc/docker/daemon.json") ∈
      sortStrings (copyfilePairs script daemonFile)) ∧
    (script = "" → daemonFile = "" → firecrackerCopyfileFlags script daemonFile = []) := by
  refine ⟨List.sorted_insertionSort _ _, fun l => List.sorted_insertionSort _ _,
    List.perm_insertionSort _ _, ?_, ?_⟩
  · intro hd
    rw [sortStrings, List.mem_insertionSort]
    unfold copyfilePairs
    by_cases hs : script ≠ "" <;> simp [hs, hd]
  · intro hs hd
    simp [firecrackerCopyfileFlags, copyfilePairs, hs, hd, sortStrings, intersperse]

/-- Witness for C6: the spec's example inputs. -/
theorem C6_witness :
    ("a" ++ ":" ++ "/etc/docker/daemon.json") ∈ sortStrings (copyfilePairs "b" "a") ∧
      firecrackerCopyfileFlags "" "" = [] := by
  have h1 := C6_theorem "b" "a"
  have h2 := C6_theorem "" ""
  exact ⟨h1.2.2.2.1 (by decide), h2.2.2.2.2 rfl rfl⟩

/-- C8: the daemon configuration file is written during Setup (with
successful I/O) if and only if a registry-mirror address is configured;
it is written to docker-daemon.json inside the temporary directory; and
for the mirror address http://mirror.local its content is exactly
the one-field registry-mirrors object of the spec. -/
theorem C8_theorem (o : SetupOracles) (name workspaceDevice tmpDir : String)
    (options : Options) (hc : o.createRes = none) (hcl : o.closeRes = none)
    (hw : o.writeRes = none) :
    (options.FirecrackerOptions.DockerRegistryMirrorAddress ≠ "" →
      SetupStep.wroteDaemonConfig (joinPath tmpDir dockerDaemonConfigFilename)
          (dockerDaemonConfigJSON options.FirecrackerOptions.DockerRegistryMirrorAddress) ∈
        (setupFirecracker o name workspaceDevice tmpDir options).1) ∧
    (options.FirecrackerOptions.DockerRegistryMirrorAddress = "" →
      ∀ f c, SetupStep.wroteDaemonConfig f c ∉
        (setupFirecracker o name workspaceDevice tmpDir options).1) ∧
    dockerDaemonConfigJSON "http://mirror.local" =
      "\x7b\"registry-mirrors\":[\"http://mirror.local\"]\x7d" := by
  refine ⟨?_, ?_, by decide⟩
  · intro hm
    rw [setupFirecracker, if_pos hm]
    rw [show newDockerDaemonConfig o.createRes o.closeRes o.writeRes tmpDir
        options.FirecrackerOptions.DockerRegistryMirrorAddress =
      ((joinPath tmpDir dockerDaemonConfigFilename,
        [SetupStep.wroteDaemonConfig (joinPath tmpDir dockerDaemonConfigFilename)
          (dockerDaemonConfigJSON options.FirecrackerOptions.DockerRegistryMirrorAddress)]),
        none) from by simp [newDockerDaemonConfig, hc, hcl, hw, errAppend]]
    exact setupAfterConfig_mem_steps0 o name workspaceDevice options _ _ _ (by simp)
  · intro hm f c hmem
    rw [setupFirecracker, if_neg (by simp [hm])] at hmem
    obtain ⟨l, hl, hran⟩ :=
      setupAfterConfig_appended_are_ran o name workspaceDevice options "" []
    rw [hl] at hmem
    simp only [List.nil_append] at hmem
    obtain ⟨d, hd⟩ := hran _ hmem
    cases hd

/-- Witness for C8 at the concrete mirror options. -/
theorem C8_witness :
    SetupStep.wroteDaemonConfig "/tmp/state/docker-daemon.json"
        "\x7b\"registry-mirrors\":[\"http://mirror.local\"]\x7d" ∈
      (setupFirecracker oraclesOK "vm" "/dev/sda" "/tmp/state" optionsMirror).1 := by
  have h := (C8_theorem oraclesOK "vm" "/dev/sda" "/tmp/state" optionsMirror
    rfl rfl rfl).1 (by decide)
  have heq : SetupStep.wroteDaemonConfig (joinPath "/tmp/state" dockerDaemonConfigFilename)
      (dockerDaemonConfigJSON optionsMirror.FirecrackerOptions.DockerRegistryMirrorAddress) =
      SetupStep.wroteDaemonConfig "/tmp/state/docker-daemon.json"
        "\x7b\"registry-mirrors\":[\"http://mirror.local\"]\x7d" := by decide
  rw [heq] at h
  exact h

/-- C9: with FirecrackerOptions.Enabled=false, NewRunner yields the bare
docker-tier runner; its Setup and Teardown return no error and perform
no step; and its Run, for a specification with no image (and no script
path), hands the execution primitive exactly the specification's command
tokens in the given working directory with the specification's
environment. -/
theorem C9_theorem (dir : String) (options : Options) (spec : CommandSpec)
    (henabled : options.FirecrackerOptions.Enabled = false) :
    NewRunner dir options = RunnerKind.docker dir options ∧
    dockerRunnerSetup = (([] : List SetupStep), (none : Option String)) ∧
    dockerRunnerTeardown = (([] : List TeardownStep), (none : Option String)) ∧
    (spec.Image = "" → spec.ScriptPath = "" →
      dockerRunnerRun dir options spec =
        { Key := spec.Key, Command := spec.Command,
          Dir := joinPath dir spec.Dir, Env := spec.Env }) := by
  refine ⟨?_, rfl, rfl, ?_⟩
  · rw [NewRunner, if_pos (by simp [henabled])]
  · intro himg hscript
    rw [dockerRunnerRun, formatRawOrDockerCommand, if_pos himg]
    simp [hscript]

/-- Witness for C9: the spec's end-to-end scenario — Run for
`echo hi` on the bare tier invokes the execution primitive with exactly
those tokens in the given directory. -/
theorem C9_witness :
    NewRunner "/data/workspace" optionsBare =
      RunnerKind.docker "/data/workspace" optionsBare ∧
    dockerRunnerRun "/data/workspace" optionsBare
        { Key := "step", Image := "", ScriptPath := "", Command := ["echo", "hi"],
          Dir := "", Env := [] } =
      { Key := "step", Command := ["echo", "hi"], Dir := "/data/workspace", Env := [] } := by
  have h := C9_theorem "/data/workspace" optionsBare
    { Key := "step", Image := "", ScriptPath := "", Command := ["echo", "hi"],
      Dir := "", Env := [] } (by decide)
  exact ⟨h.1, (h.2.2.2 rfl rfl).trans (by decide)⟩

/-- C10: with a configured startup-script path, Setup copies the script
into the VM at the identical path it occupies on the host (the
copy-files pair is `<path>:<path>`), and the subsequent exec invocation
runs the script inside the VM by that same host path. -/
theorem C10_theorem (script daemonFile : String) (o : SetupOracles)
    (name workspaceDevice tmpDir : String) (options : Options)
    (hscript : script ≠ "")
    (hopts : options.FirecrackerOptions.VMStartupScriptPath = script)
    (hrun : ∀ c, o.runRes c = none)
    (hc : o.createRes = none) (hcl : o.closeRes = none) (hw : o.writeRes = none) :
    (script ++ ":" ++ script) ∈ sortStrings (copyfilePairs script daemonFile) ∧
    SetupStep.ran
        { Key := "setup.startup-script",
          Command := ["ignite", "exec", name, "--", script], Dir := "", Env := [] } ∈
      (setupFirecracker o name workspaceDevice tmpDir options).1 := by
  constructor
  · rw [sortStrings, List.mem_insertionSort]
    unfold copyfilePairs
    by_cases hd : daemonFile ≠ "" <;> simp [hscript, hd]
  · have hcmd : startupScriptCommandOf options name =
        { Key := "setup.startup-script",
          Command := ["ignite", "exec", name, "--", script], Dir := "", Env := [] } := by
      rw [startupScriptCommandOf, hopts]
    have hpath : options.FirecrackerOptions.VMStartupScriptPath ≠ "" := by
      rw [hopts]; exact hscript
    rw [setupFirecracker]
    by_cases hm : options.FirecrackerOptions.DockerRegistryMirrorAddress ≠ ""
    · rw [if_pos hm]
      have hval : newDockerDaemonConfig o.createRes o.closeRes o.writeRes tmpDir
          options.FirecrackerOptions.DockerRegistryMirrorAddress =
          ((joinPath tmpDir dockerDaemonConfigFilename,
            [SetupStep.wroteDaemonConfig (joinPath tmpDir dockerDaemonConfigFilename)
              (dockerDaemonConfigJSON
                options.FirecrackerOptions.DockerRegistryMirrorAddress)]), none) := by
        simp [newDockerDaemonConfig, hc, hcl, hw, errAppend]
      rw [hval, ← hcmd]
      exact setupAfterConfig_mem_script o name workspaceDevice options _ _ (hrun _) hpath
    · rw [if_neg hm]
      rw [← hcmd]
      exact setupAfterConfig_mem_script o name workspaceDevice options "" [] (hrun _) hpath

/-- Witness for C10 at the concrete startup script /opt/startup.sh. -/
theorem C10_witness :
    ("/opt/startup.sh" ++ ":" ++ "/opt/startup.sh") ∈
      sortStrings (copyfilePairs "/opt/startup.sh" "") ∧
    SetupStep.ran
        { Key := "setup.startup-script",
          Command := ["ignite", "exec", "vm", "--", "/opt/startup.sh"],
          Dir := "", Env := [] } ∈
      (setupFirecracker oraclesOK "vm" "/dev/sda" "/tmp/state" optionsPlain).1 := by
  exact C10_theorem "/opt/startup.sh" "" oraclesOK "vm" "/dev/sda" "/tmp/state"
    optionsPlain (by decide) rfl (fun c => rfl) rfl rfl rfl
